import Mathlib

/-! # Per-voice rendering of the microtonal synth (`Source/synth.cpp`)

A shallow embedding of `Synth::Voice`: note lifecycle (`startNote`, `stopNote`,
`pitchWheelMoved`), the frequency computation (`getFrequencyForNote`,
`getDetuneFromPitchWheel`, `updateFrequency`) and the chunked rendering loop
(`renderNextBlock`).

Conventions of the embedding.

* Samples, gains and frequencies live in an ordered field `K` (the C++ code uses
  `float` and `double`); the rationals are used for evaluation, the reals for the
  frequency formula.
* The JUCE classes the voice is built from (`juce::ADSR`, the oscillator/gain
  processor chain, `std::pow`) are not part of the repository.  They enter as a
  record of operations, `Library`, over abstract state types `G` (generator) and
  `E` (envelope).
* Live parameters are read through handles; `ParameterValues` is what the handles
  return at one instant.  Every handle is read at most once per chunk, so a stream
  `ℕ → ParameterValues K` (one snapshot per chunk) covers every interleaving with
  the thread that writes the parameters.
* The output buffer is channel 0 of the host buffer, a function from sample index
  to sample.  The two scratch buffers are cleared before every use, so only their
  sizes are voice state; their contents are local to a chunk.
* The `while` loop of `renderNextBlock` is run with fuel and returns `none` when
  the fuel runs out, so that termination is a theorem and not an assumption.
-/

set_option linter.unusedVariables false
set_option linter.unusedSectionVars false
set_option maxHeartbeats 400000

namespace Synth

/-! ## Parameters and external library -/

/-- Values returned by the parameter handles at one instant: the ADSR times, the
output gain, and for oscillator `i` the parameters `osc i` and `detune i`. -/
structure ParameterValues (K : Type) where
  attack : K
  decay : K
  sustain : K
  release : K
  gain : K
  osc : ℕ → K
  detune : ℕ → K

/-- The record `juce::ADSR::Parameters`. -/
structure ADSRParameters (K : Type) where
  attack : K
  decay : K
  sustain : K
  release : K

/-- Constants declared in the header `synth.h`, which is not part of the sources:
the scratch buffer size, the pitch-wheel range and the default concert pitch of
`getFrequencyForNote`. -/
structure Config (K : Type) where
  internalBufferSize : ℕ
  maxPitchWheelSemitones : K
  concertPitch : K

/-- Operations of the external libraries used by the voice.  `process` stands for
`osc.process (context)` on a replacing context over a block, `applyEnvelopeToBuffer`
for `adsr.applyEnvelopeToBuffer (buffer, 0, left)` on a block of `left` samples. -/
structure Library (K G E : Type) where
  pow : K → K → K
  setFrequency : K → Bool → G → G
  setGainLinear : K → G → G
  process : G → List K → G × List K
  setParameters : ADSRParameters K → E → E
  noteOn : E → E
  noteOff : E → E
  reset : E → E
  isActive : E → Bool
  applyEnvelopeToBuffer : E → List K → E × List K

/-- The value of `Synth::numOscillators`. -/
def numOscillators : ℕ := 4

/-- What `dynamic_cast<Sound*>` can see of a `juce::SynthesiserSound`: either it is a
`Synth::Sound` or it is some other sound. -/
inductive SynthesiserSound where
  | synthSound
  | otherSound
  deriving DecidableEq, Repr

/-- The method `Synth::Sound::getADSR`: the four envelope parameters as they are now. -/
def Sound.getADSR {K : Type} (P : ParameterValues K) : ADSRParameters K :=
  { attack := P.attack, decay := P.decay, sustain := P.sustain, release := P.release }

/-! ## Voice state -/

/-- One oscillator of the bank: handles of its gain and detune parameters, its
harmonic multiplier and the state of its generator chain. -/
structure BaseOscillator (G : Type) where
  gain : ℕ
  detune : ℕ
  multiplier : ℕ
  osc : G

/-- State of a `Synth::Voice`.  `currentlyPlayingNote` is the field of the base
class `juce::SynthesiserVoice`, with `none` for its value meaning that no note is set. -/
structure Voice (K G E : Type) where
  oscillators : List (BaseOscillator G)
  adsr : E
  currentlyPlayingNote : Option ℤ
  pitchWheelValue : K
  lastGain : K
  oscillatorBufferSize : ℕ
  voiceBufferSize : ℕ

/-- Result of a render call: the voice, the output buffer, and (ghost state) the
`(startSample, left)` pair of every chunk that was processed, in order. -/
structure RenderResult (K G E : Type) where
  voice : Voice K G E
  output : ℤ → K
  chunks : List (ℤ × ℤ)

section Model

variable {K G E : Type} [LinearOrderedField K]

/-- The constructor `Synth::Voice::Voice`: a bank of `numOscillators` oscillators with
multipliers `1, 2, ...`, and both scratch buffers sized `internalBufferSize`.  The
fresh generator `g0`, the fresh envelope `e0` and the initial values of the two
fields initialised in the header are arguments. -/
def Voice.create (cfg : Config K) (g0 : G) (e0 : E) (pitchWheel0 lastGain0 : K) :
    Voice K G E :=
  { oscillators := (List.range numOscillators).map
      (fun i => { gain := i, detune := i, multiplier := i + 1, osc := g0 })
    adsr := e0
    currentlyPlayingNote := none
    pitchWheelValue := pitchWheel0
    lastGain := lastGain0
    oscillatorBufferSize := cfg.internalBufferSize
    voiceBufferSize := cfg.internalBufferSize }

/-- The method `canPlaySound`. -/
def canPlaySound (sound : SynthesiserSound) : Bool :=
  match sound with
  | .synthSound => true
  | .otherSound => false

/-- The base-class accessor `getCurrentlyPlayingNote`: `-1` when no note is set. -/
def getCurrentlyPlayingNote (v : Voice K G E) : ℤ :=
  v.currentlyPlayingNote.getD (-1)

/-- The base-class method `clearCurrentNote`. -/
def clearCurrentNote (v : Voice K G E) : Voice K G E :=
  { v with currentlyPlayingNote := none }

/-- The method `getFrequencyForNote`, with `std::pow` passed in. -/
def getFrequencyForNote (pow : K → K → K) (noteNumber : ℤ) (detune concertPitch : K) : K :=
  concertPitch * pow 2 (((noteNumber : K) + detune - 69) / 12)

/-- The method `getDetuneFromPitchWheel`. -/
def getDetuneFromPitchWheel (wheelValue : ℤ) : K :=
  ((wheelValue : K) / 8192) - 1

/-- The value `freq * oscillator.multiplier` that `updateFrequency` hands to the
generator. -/
def oscillatorFrequency (lib : Library K G E) (cfg : Config K) (P : ParameterValues K)
    (v : Voice K G E) (oscillator : BaseOscillator G) : K :=
  getFrequencyForNote lib.pow (getCurrentlyPlayingNote v)
      (v.pitchWheelValue * cfg.maxPitchWheelSemitones + P.detune oscillator.detune)
      cfg.concertPitch
    * (oscillator.multiplier : K)

/-- The method `updateFrequency`. -/
def updateFrequency (lib : Library K G E) (cfg : Config K) (P : ParameterValues K)
    (v : Voice K G E) (oscillator : BaseOscillator G) (noteStart : Bool) : BaseOscillator G :=
  { oscillator with
    osc := lib.setFrequency (oscillatorFrequency lib cfg P v oscillator) noteStart oscillator.osc }

/-- The method `startNote`. -/
def startNote (lib : Library K G E) (cfg : Config K) (P : ParameterValues K)
    (v : Voice K G E) (midiNoteNumber : ℤ) (velocity : K) (sound : SynthesiserSound)
    (currentPitchWheelPosition : ℤ) : Voice K G E :=
  let v1 : Voice K G E :=
    match sound with
    | .synthSound => { v with adsr := lib.setParameters (Sound.getADSR P) v.adsr }
    | .otherSound => v
  let v2 : Voice K G E :=
    { v1 with pitchWheelValue := getDetuneFromPitchWheel currentPitchWheelPosition }
  let v3 : Voice K G E := { v2 with adsr := lib.noteOn v2.adsr }
  { v3 with oscillators := v3.oscillators.map (fun osc => updateFrequency lib cfg P v3 osc true) }

/-- The method `stopNote`. -/
def stopNote (lib : Library K G E) (v : Voice K G E) (velocity : K) (allowTailOff : Bool) :
    Voice K G E :=
  if allowTailOff then
    { v with adsr := lib.noteOff v.adsr }
  else
    clearCurrentNote { v with adsr := lib.reset v.adsr }

/-- The method `pitchWheelMoved`. -/
def pitchWheelMoved (v : Voice K G E) (newPitchWheelValue : ℤ) : Voice K G E :=
  { v with pitchWheelValue := getDetuneFromPitchWheel newPitchWheelValue }

/-- The method `controllerMoved`. -/
def controllerMoved (v : Voice K G E) (controllerNumber newControllerValue : ℤ) : Voice K G E :=
  v

/-- Modelled from the spec: `juce::AudioBuffer::addFromWithRamp` on channel 0, which is
not part of the sources.  Sample `i` of `source`, for `i < numSamples`, is added at
`destStartSample + i` with the gain `startGain + i * (endGain - startGain) / numSamples`
(the first sample uses `startGain`, the last one approaches `endGain`). -/
def addFromWithRamp (dest : ℤ → K) (destStartSample : ℤ) (source : List K) (numSamples : ℕ)
    (startGain endGain : K) : ℤ → K :=
  fun j =>
    if destStartSample ≤ j ∧ j < destStartSample + numSamples then
      dest j + (startGain + ((j - destStartSample : ℤ) : K) * ((endGain - startGain) / numSamples))
        * source.getD (j - destStartSample).toNat 0
    else dest j

/-- The `for (auto& osc : oscillators)` loop of one chunk: threads the mix buffer
`voiceBuffer` through the bank and returns the updated oscillators and the mix.
The call `updateFrequency (*osc)` leaves `noteStart` to its default in the header,
taken to be `false`: only `startNote` asks for a reset. -/
def renderOscillators (lib : Library K G E) (cfg : Config K) (P : ParameterValues K)
    (v : Voice K G E) (left : ℕ) :
    List (BaseOscillator G) → List K → List (BaseOscillator G) × List K
  | [], voiceBuffer => ([], voiceBuffer)
  | osc :: rest, voiceBuffer =>
    let oscGain := P.osc osc.gain
    if oscGain < 0.01 then
      let r := renderOscillators lib cfg P v left rest voiceBuffer
      (osc :: r.1, r.2)
    else
      let osc1 := updateFrequency lib cfg P v osc false
      let osc2 : BaseOscillator G := { osc1 with osc := lib.setGainLinear oscGain osc1.osc }
      let p := lib.process osc2.osc (List.replicate left 0)
      let osc3 : BaseOscillator G := { osc2 with osc := p.1 }
      let r := renderOscillators lib cfg P v left rest (List.zipWith (· + ·) voiceBuffer p.2)
      (osc3 :: r.1, r.2)

/-- The enveloped mix of one chunk of `left` samples: the oscillator loop on a cleared
mix buffer, followed by `adsr.applyEnvelopeToBuffer`. -/
def chunkMix (lib : Library K G E) (cfg : Config K) (P : ParameterValues K)
    (v : Voice K G E) (left : ℕ) : List (BaseOscillator G) × (E × List K) :=
  let r := renderOscillators lib cfg P v left v.oscillators (List.replicate left 0)
  (r.1, lib.applyEnvelopeToBuffer v.adsr r.2)

/-- The body of the `while` loop up to `lastGain = gain`, for a chunk of `left` samples
written at `startSample`. -/
def renderChunk (lib : Library K G E) (cfg : Config K) (P : ParameterValues K)
    (v : Voice K G E) (out : ℤ → K) (startSample : ℤ) (left : ℕ) : Voice K G E × (ℤ → K) :=
  let m := chunkMix lib cfg P v left
  let gain := P.gain
  ({ v with oscillators := m.1, adsr := m.2.1, lastGain := gain },
    addFromWithRamp out startSample m.2.2 left v.lastGain gain)

/-- The length `left` of the next chunk: `std::min (numSamples, oscillatorBuffer.getNumSamples())`. -/
def chunkLeft (v : Voice K G E) (numSamples : ℤ) : ℤ :=
  min numSamples (v.oscillatorBufferSize : ℤ)

/-- The end of the loop body: `if (!adsr.isActive()) clearCurrentNote();`. -/
def clearNoteIfInactive (lib : Library K G E) (v : Voice K G E) : Voice K G E :=
  if !lib.isActive v.adsr then clearCurrentNote v else v

/-- The `while (numSamples > 0)` loop of `renderNextBlock`.  `P 0` is read by the first
chunk, `P 1` by the second, and so on. -/
def renderLoop (lib : Library K G E) (cfg : Config K) :
    ℕ → (ℕ → ParameterValues K) → Voice K G E → (ℤ → K) → ℤ → ℤ → Option (RenderResult K G E)
  | 0, _, v, out, _, numSamples =>
    if numSamples > 0 then none else some { voice := v, output := out, chunks := [] }
  | fuel + 1, P, v, out, startSample, numSamples =>
    if numSamples > 0 then
      let left := chunkLeft v numSamples
      let c := renderChunk lib cfg (P 0) v out startSample left.toNat
      (renderLoop lib cfg fuel (fun k => P (k + 1)) (clearNoteIfInactive lib c.1) c.2
          (startSample + left) (numSamples - left)).map
        (fun r => { r with chunks := (startSample, left) :: r.chunks })
    else some { voice := v, output := out, chunks := [] }

/-- The method `renderNextBlock`. -/
def renderNextBlock (lib : Library K G E) (cfg : Config K) (fuel : ℕ)
    (P : ℕ → ParameterValues K) (v : Voice K G E) (outputBuffer : ℤ → K)
    (startSample numSamples : ℤ) : Option (RenderResult K G E) :=
  if !lib.isActive v.adsr then
    some { voice := v, output := outputBuffer, chunks := [] }
  else
    renderLoop lib cfg fuel P v outputBuffer startSample numSamples

/-- The voice and the output buffer with which the loop of `renderNextBlock` enters
its iteration number `k` (counted from 0): the loop body run `k` times from the
state at the start of the call. -/
def stateBeforeChunk (lib : Library K G E) (cfg : Config K) :
    ℕ → (ℕ → ParameterValues K) → Voice K G E → (ℤ → K) → ℤ → ℤ → Voice K G E × (ℤ → K)
  | 0, _, v, out, _, _ => (v, out)
  | k + 1, P, v, out, startSample, numSamples =>
    let left := chunkLeft v numSamples
    let c := renderChunk lib cfg (P 0) v out startSample left.toNat
    stateBeforeChunk lib cfg k (fun i => P (i + 1)) (clearNoteIfInactive lib c.1) c.2
      (startSample + left) (numSamples - left)

end Model

/-! ## An example library over the rationals

The theorems below hold for every `Library`.  To evaluate the voice on concrete
inputs, the following instance supplies a small generator and an ADSR envelope with
exact rational arithmetic. -/

/-- State of the example generator chain: the frequency and gain last set and the
number of samples generated so far. -/
structure DemoOsc where
  frequency : ℚ
  gain : ℚ
  phase : ℕ
  deriving DecidableEq

/-- Waveform of the example generator: a unit square wave with a period of four
samples. -/
def demoWave (t : ℕ) : ℚ := if t % 4 < 2 then 1 else -1

/-- Block processing of the example generator: the oscillator adds its waveform to
the block, the gain stage scales the result; the phase advances by one per sample. -/
def demoProcess (g : DemoOsc) : List ℚ → DemoOsc × List ℚ
  | [] => (g, [])
  | x :: xs =>
    let r := demoProcess { g with phase := g.phase + 1 } xs
    (r.1, g.gain * (x + demoWave g.phase) :: r.2)

/-- Phases of the envelope generator. -/
inductive EnvPhase where
  | idle
  | attack
  | decay
  | sustain
  | release
  deriving DecidableEq, Repr

/-- Modelled from the spec: state of the EnvelopeGenerator (the class `juce::ADSR` is
not part of the sources): the phase, the current amplitude, the sample rate, the
parameters captured by `setParameters` and the per-sample release step fixed by
`noteOff`. -/
structure DemoADSR where
  state : EnvPhase
  envelopeVal : ℚ
  sampleRate : ℚ
  parameters : ADSRParameters ℚ
  releaseRate : ℚ

/-- Modelled from the spec: the amplitude step per sample that covers `distance` in
`time` seconds. -/
def DemoADSR.rate (e : DemoADSR) (distance time : ℚ) : ℚ :=
  distance / (time * e.sampleRate)

/-- Modelled from the spec: `noteOn` of the EnvelopeGenerator starts the attack (or the
decay or sustain phase when the earlier phases have no duration); the envelope is
active afterwards. -/
def DemoADSR.noteOn (e : DemoADSR) : DemoADSR :=
  if 0 < e.parameters.attack then { e with state := .attack }
  else if 0 < e.parameters.decay then { e with state := .decay, envelopeVal := 1 }
  else { e with state := .sustain, envelopeVal := e.parameters.sustain }

/-- Modelled from the spec: a forced reset of the EnvelopeGenerator: idle, zero
amplitude. -/
def DemoADSR.reset (e : DemoADSR) : DemoADSR :=
  { e with state := .idle, envelopeVal := 0 }

/-- Modelled from the spec: `noteOff` with a tail: an active envelope moves to the
release phase and falls from its current amplitude to zero in `release` seconds. -/
def DemoADSR.noteOff (e : DemoADSR) : DemoADSR :=
  if e.state = .idle then e
  else if 0 < e.parameters.release then
    { e with state := .release, releaseRate := e.rate e.envelopeVal e.parameters.release }
  else e.reset

/-- Modelled from the spec: one sample of the EnvelopeGenerator: the new state and the
amplitude of this sample. -/
def DemoADSR.getNextSample (e : DemoADSR) : DemoADSR × ℚ :=
  match e.state with
  | .idle => (e, 0)
  | .attack =>
    if 1 ≤ e.envelopeVal + e.rate 1 e.parameters.attack then
      ({ e with envelopeVal := 1,
                state := if 0 < e.parameters.decay then .decay else .sustain }, 1)
    else ({ e with envelopeVal := e.envelopeVal + e.rate 1 e.parameters.attack },
          e.envelopeVal + e.rate 1 e.parameters.attack)
  | .decay =>
    if e.envelopeVal - e.rate (1 - e.parameters.sustain) e.parameters.decay
        ≤ e.parameters.sustain then
      ({ e with envelopeVal := e.parameters.sustain, state := .sustain }, e.parameters.sustain)
    else ({ e with envelopeVal :=
              e.envelopeVal - e.rate (1 - e.parameters.sustain) e.parameters.decay },
          e.envelopeVal - e.rate (1 - e.parameters.sustain) e.parameters.decay)
  | .sustain => ({ e with envelopeVal := e.parameters.sustain }, e.parameters.sustain)
  | .release =>
    if e.envelopeVal - e.releaseRate ≤ 0 then (e.reset, 0)
    else ({ e with envelopeVal := e.envelopeVal - e.releaseRate },
          e.envelopeVal - e.releaseRate)

/-- Modelled from the spec: the envelope applied to a block in place, sample by
sample, advancing the envelope by the length of the block. -/
def DemoADSR.applyEnvelopeToBuffer (e : DemoADSR) : List ℚ → DemoADSR × List ℚ
  | [] => (e, [])
  | x :: xs =>
    let r := DemoADSR.applyEnvelopeToBuffer e.getNextSample.1 xs
    (r.1, x * e.getNextSample.2 :: r.2)

/-- The example library: the example generator, the spec-modelled envelope, and an
integer-step stand-in for `std::pow` that is exact at whole exponents. -/
def demoLibrary : Library ℚ DemoOsc DemoADSR :=
  { pow := fun b e => b ^ ⌊e⌋
    setFrequency := fun f _ g => { g with frequency := f }
    setGainLinear := fun x g => { g with gain := x }
    process := demoProcess
    setParameters := fun p e => { e with parameters := p }
    noteOn := DemoADSR.noteOn
    noteOff := DemoADSR.noteOff
    reset := DemoADSR.reset
    isActive := fun e => decide (e.state ≠ .idle)
    applyEnvelopeToBuffer := DemoADSR.applyEnvelopeToBuffer }

/-- Example configuration: scratch buffers of four samples, a pitch-wheel range of two
semitones, concert pitch 440. -/
def demoConfig : Config ℚ :=
  { internalBufferSize := 4, maxPitchWheelSemitones := 2, concertPitch := 440 }

/-- Example parameter values: the defaults of the parameter layout, with oscillator 0
at full gain and the others at zero. -/
def demoParameters : ParameterValues ℚ :=
  { attack := 1 / 10, decay := 1 / 10, sustain := 1, release := 1 / 10, gain := 7 / 10
    osc := fun i => if i = 0 then 1 else 0
    detune := fun _ => 0 }

/-- A freshly constructed example voice, prepared for 20 samples per second: idle
envelope, silent generators, pitch wheel at the centre, last gain 0. -/
def demoVoice : Voice ℚ DemoOsc DemoADSR :=
  Voice.create demoConfig { frequency := 0, gain := 0, phase := 0 }
    { state := .idle, envelopeVal := 0, sampleRate := 20,
      parameters := { attack := 1 / 10, decay := 1 / 10, sustain := 1, release := 1 / 10 },
      releaseRate := 0 } 0 0

/-- The example voice playing note 69: the caller stores the note, then calls
`startNote` with the wheel at its centre. -/
def demoPlayingVoice : Voice ℚ DemoOsc DemoADSR :=
  startNote demoLibrary demoConfig demoParameters
    { demoVoice with currentlyPlayingNote := some 69 } 69 1 .synthSound 8192

/-- The example voice holding note 69 at the sustain level, with the last gain
already at the output gain of `demoParameters`. -/
def demoSustainingVoice : Voice ℚ DemoOsc DemoADSR :=
  { demoPlayingVoice with
    adsr := { demoPlayingVoice.adsr with state := .sustain, envelopeVal := 1 }
    lastGain := 7 / 10 }

/-- The example voice after the key was released with a tail: the envelope falls
from 1 to 0 in two samples. -/
def demoReleasingVoice : Voice ℚ DemoOsc DemoADSR :=
  stopNote demoLibrary demoSustainingVoice 0 true

/-- The parameter stream that reads the output gain 7/10 in the first chunk of a call
and 1/2 in the later ones, everything else as in `demoParameters`. -/
def demoGainStream : ℕ → ParameterValues ℚ :=
  fun k => if k = 0 then demoParameters else { demoParameters with gain := 1 / 2 }

end Synth

/-! ## Basic facts -/

namespace Synth

section Facts

variable {K G E : Type} [LinearOrderedField K]

theorem renderLoop_nonpos (lib : Library K G E) (cfg : Config K) (fuel : ℕ)
    (P : ℕ → ParameterValues K) (v : Voice K G E) (out : ℤ → K) (s n : ℤ) (hn : n ≤ 0) :
    renderLoop lib cfg fuel P v out s n = some { voice := v, output := out, chunks := [] } := by
  have h : ¬ n > 0 := not_lt.mpr hn
  cases fuel <;> simp [renderLoop, h]

theorem renderNextBlock_active (lib : Library K G E) (cfg : Config K) (fuel : ℕ)
    (P : ℕ → ParameterValues K) (v : Voice K G E) (out : ℤ → K) (s n : ℤ)
    (h : lib.isActive v.adsr = true) :
    renderNextBlock lib cfg fuel P v out s n = renderLoop lib cfg fuel P v out s n := by
  simp [renderNextBlock, h]

/-- The constructor sizes both scratch buffers alike. -/
theorem create_buffer_sizes (cfg : Config K) (g0 : G) (e0 : E) (w l : K) :
    (Voice.create cfg g0 e0 w l).voiceBufferSize
      = (Voice.create cfg g0 e0 w l).oscillatorBufferSize :=
  rfl

/-- An inactive envelope makes `renderNextBlock` return at once. -/
theorem renderNextBlock_of_inactive (lib : Library K G E) (cfg : Config K) (fuel : ℕ)
    (P : ℕ → ParameterValues K) (v : Voice K G E) (out : ℤ → K) (s n : ℤ)
    (h : lib.isActive v.adsr = false) :
    renderNextBlock lib cfg fuel P v out s n
      = some { voice := v, output := out, chunks := [] } := by
  simp [renderNextBlock, h]

theorem demoLibrary_reset_inactive (e : DemoADSR) :
    demoLibrary.isActive (demoLibrary.reset e) = false := by
  simp [demoLibrary, DemoADSR.reset]

theorem demoLibrary_noteOn_active (e : DemoADSR) :
    demoLibrary.isActive (demoLibrary.noteOn e) = true := by
  simp only [demoLibrary, DemoADSR.noteOn]
  split_ifs <;> simp

/-- Outside the window `[destStartSample, destStartSample + numSamples)` the ramped
addition leaves the destination as it was. -/
theorem addFromWithRamp_outside (dest : ℤ → K) (d : ℤ) (source : List K) (m : ℕ)
    (g0 g1 : K) (j : ℤ) (hj : j < d ∨ d + m ≤ j) :
    addFromWithRamp dest d source m g0 g1 j = dest j := by
  have h : ¬ (d ≤ j ∧ j < d + m) := by omega
  simp [addFromWithRamp, h]

/-- Unfolding of one iteration of the loop. -/
theorem renderLoop_succ (lib : Library K G E) (cfg : Config K) (fuel : ℕ)
    (P : ℕ → ParameterValues K) (v : Voice K G E) (out : ℤ → K) (s n : ℤ) (hn : 0 < n) :
    renderLoop lib cfg (fuel + 1) P v out s n
      = (renderLoop lib cfg fuel (fun k => P (k + 1))
          (clearNoteIfInactive lib (renderChunk lib cfg (P 0) v out s (chunkLeft v n).toNat).1)
          (renderChunk lib cfg (P 0) v out s (chunkLeft v n).toNat).2
          (s + chunkLeft v n) (n - chunkLeft v n)).map
        (fun r => { r with chunks := (s, chunkLeft v n) :: r.chunks }) := by
  simp [renderLoop, hn]

/-- The voice after a chunk and the end-of-chunk check keeps the scratch sizes and
the pitch-wheel value, and its last gain is the gain read by the chunk. -/
theorem afterChunk_fields (lib : Library K G E) (cfg : Config K) (p : ParameterValues K)
    (v : Voice K G E) (out : ℤ → K) (s : ℤ) (left : ℕ) :
    (clearNoteIfInactive lib (renderChunk lib cfg p v out s left).1).oscillatorBufferSize
      = v.oscillatorBufferSize ∧
    (clearNoteIfInactive lib (renderChunk lib cfg p v out s left).1).voiceBufferSize
      = v.voiceBufferSize ∧
    (clearNoteIfInactive lib (renderChunk lib cfg p v out s left).1).pitchWheelValue
      = v.pitchWheelValue ∧
    (clearNoteIfInactive lib (renderChunk lib cfg p v out s left).1).lastGain = p.gain := by
  unfold clearNoteIfInactive
  split_ifs <;> simp [renderChunk, clearCurrentNote]

/-- With a positive scratch size the loop returns once the fuel covers the number
of samples. -/
theorem renderLoop_isSome (lib : Library K G E) (cfg : Config K) (C : ℕ) (hC : 0 < C) :
    ∀ (fuel : ℕ) (P : ℕ → ParameterValues K) (v : Voice K G E) (out : ℤ → K) (s n : ℤ),
      v.oscillatorBufferSize = C → n.toNat ≤ fuel →
      ∃ r, renderLoop lib cfg fuel P v out s n = some r := by
  intro fuel
  induction fuel with
  | zero =>
    intro P v out s n _ hf
    exact ⟨_, renderLoop_nonpos lib cfg 0 P v out s n (by omega)⟩
  | succ fuel ih =>
    intro P v out s n hv hf
    by_cases hn : 0 < n
    · rw [renderLoop_succ lib cfg fuel P v out s n hn]
      obtain ⟨r, hr⟩ := ih (fun k => P (k + 1))
        (clearNoteIfInactive lib (renderChunk lib cfg (P 0) v out s (chunkLeft v n).toNat).1)
        (renderChunk lib cfg (P 0) v out s (chunkLeft v n).toNat).2
        (s + chunkLeft v n) (n - chunkLeft v n)
        (by rw [(afterChunk_fields lib cfg (P 0) v out s _).1, hv])
        (by unfold chunkLeft; rw [hv]; omega)
      exact ⟨_, by rw [hr]; rfl⟩
    · exact ⟨_, renderLoop_nonpos lib cfg _ P v out s n (by omega)⟩

/-- With scratch buffers of size zero the loop never returns on a positive number
of samples, whatever the fuel. -/
theorem renderLoop_zero_size (lib : Library K G E) (cfg : Config K) :
    ∀ (fuel : ℕ) (P : ℕ → ParameterValues K) (v : Voice K G E) (out : ℤ → K) (s n : ℤ),
      v.oscillatorBufferSize = 0 → 0 < n → renderLoop lib cfg fuel P v out s n = none := by
  intro fuel
  induction fuel with
  | zero =>
    intro P v out s n _ hn
    simp [renderLoop, hn]
  | succ fuel ih =>
    intro P v out s n hv hn
    rw [renderLoop_succ lib cfg fuel P v out s n hn, ih]
    · rfl
    · rw [(afterChunk_fields lib cfg (P 0) v out s _).1, hv]
    · unfold chunkLeft
      rw [hv]
      omega

/-- A returning loop either had nothing to do or ran one chunk and then the loop
on the rest. -/
theorem renderLoop_some_inv (lib : Library K G E) (cfg : Config K) (fuel : ℕ)
    (P : ℕ → ParameterValues K) (v : Voice K G E) (out : ℤ → K) (s n : ℤ)
    (r : RenderResult K G E) (h : renderLoop lib cfg fuel P v out s n = some r) :
    (n ≤ 0 ∧ r = { voice := v, output := out, chunks := [] }) ∨
    (0 < n ∧ ∃ (fuel1 : ℕ) (r1 : RenderResult K G E), fuel = fuel1 + 1 ∧
      renderLoop lib cfg fuel1 (fun k => P (k + 1))
          (clearNoteIfInactive lib (renderChunk lib cfg (P 0) v out s (chunkLeft v n).toNat).1)
          (renderChunk lib cfg (P 0) v out s (chunkLeft v n).toNat).2
          (s + chunkLeft v n) (n - chunkLeft v n) = some r1 ∧
      r = { r1 with chunks := (s, chunkLeft v n) :: r1.chunks }) := by
  by_cases hn : 0 < n
  · right
    refine ⟨hn, ?_⟩
    cases fuel with
    | zero => simp [renderLoop, hn] at h
    | succ fuel =>
      rw [renderLoop_succ lib cfg fuel P v out s n hn, Option.map_eq_some'] at h
      obtain ⟨r1, h1, h2⟩ := h
      exact ⟨fuel, r1, rfl, h1, h2.symm⟩
  · left
    rw [renderLoop_nonpos lib cfg fuel P v out s n (by omega)] at h
    exact ⟨by omega, (Option.some.inj h).symm⟩

/-- The chunks of a returning loop: chunk `k` starts where the earlier chunks end
and its length is the smaller of the remaining count and the scratch size, at least
one; the lengths add up to the number of samples. -/
theorem renderLoop_some_chunks (lib : Library K G E) (cfg : Config K) (C : ℕ) (hC : 0 < C) :
    ∀ (fuel : ℕ) (P : ℕ → ParameterValues K) (v : Voice K G E) (out : ℤ → K) (s n : ℤ)
      (r : RenderResult K G E),
      v.oscillatorBufferSize = C → renderLoop lib cfg fuel P v out s n = some r →
      (∀ (k : ℕ) (c : ℤ × ℤ), r.chunks[k]? = some c →
        c = (s + ((r.chunks.take k).map Prod.snd).sum,
             min (n - ((r.chunks.take k).map Prod.snd).sum) (C : ℤ)) ∧
        1 ≤ min (n - ((r.chunks.take k).map Prod.snd).sum) (C : ℤ)) ∧
      (r.chunks.map Prod.snd).sum = max n 0 ∧
      (r.chunks = [] ↔ n ≤ 0) := by
  intro fuel
  induction fuel with
  | zero =>
    intro P v out s n r _ h
    rcases renderLoop_some_inv lib cfg 0 P v out s n r h with ⟨hn, rfl⟩ | ⟨_, f, _, hf, _⟩
    · simp [hn]
    · omega
  | succ fuel ih =>
    intro P v out s n r hv h
    rcases renderLoop_some_inv lib cfg _ P v out s n r h with ⟨hn, rfl⟩ | ⟨hn, f, r1, hf, h1, rfl⟩
    · simp [hn]
    · obtain rfl : fuel = f := by omega
      have hleft : chunkLeft v n = min n (C : ℤ) := by simp [chunkLeft, hv]
      obtain ⟨ih1, ih2, _⟩ := ih _ _ _ _ _ r1
        (by rw [(afterChunk_fields lib cfg (P 0) v out s _).1, hv]) h1
      refine ⟨?_, ?_, ?_⟩
      · intro k c hk
        cases k with
        | zero =>
          simp only [List.getElem?_cons_zero, Option.some.injEq] at hk
          subst hk
          simp only [List.take_zero, List.map_nil, List.sum_nil, add_zero, sub_zero, hleft,
            true_and]
          omega
        | succ k =>
          simp only [List.getElem?_cons_succ] at hk
          obtain ⟨e1, e2⟩ := ih1 k c hk
          simp only [List.take_succ_cons, List.map_cons, List.sum_cons, hleft]
          rw [hleft] at e1 e2
          constructor
          · rw [e1]
            congr 1
            · ring
            · congr 1
              ring
          · have : n - (min n (C : ℤ) + ((r1.chunks.take k).map Prod.snd).sum)
                = n - min n (C : ℤ) - ((r1.chunks.take k).map Prod.snd).sum := by ring
            rw [this]
            exact e2
      · simp only [List.map_cons, List.sum_cons, ih2, hleft]
        omega
      · simp
        omega

/-- A returning loop leaves the output unchanged outside the window
`[startSample, startSample + numSamples)`. -/
theorem renderLoop_some_outside (lib : Library K G E) (cfg : Config K) :
    ∀ (fuel : ℕ) (P : ℕ → ParameterValues K) (v : Voice K G E) (out : ℤ → K) (s n : ℤ)
      (r : RenderResult K G E), renderLoop lib cfg fuel P v out s n = some r →
      ∀ j : ℤ, (j < s ∨ s + n ≤ j) → r.output j = out j := by
  intro fuel
  induction fuel with
  | zero =>
    intro P v out s n r h j _
    rcases renderLoop_some_inv lib cfg 0 P v out s n r h with ⟨_, rfl⟩ | ⟨_, f, _, hf, _⟩
    · rfl
    · omega
  | succ fuel ih =>
    intro P v out s n r h j hj
    rcases renderLoop_some_inv lib cfg _ P v out s n r h with ⟨_, rfl⟩ | ⟨hn, f, r1, hf, h1, rfl⟩
    · rfl
    · obtain rfl : fuel = f := by omega
      have hl : 0 ≤ chunkLeft v n ∧ chunkLeft v n ≤ n := by
        unfold chunkLeft
        omega
      have e1 := ih _ _ _ _ _ r1 h1 j (by omega)
      simp only [] at e1 ⊢
      rw [e1]
      simp only [renderChunk]
      apply addFromWithRamp_outside
      omega

/-- After a returning loop that ran at least one chunk, the last gain of the voice
is the output gain read by the last chunk; the scratch sizes and the pitch-wheel
value are those of the start. -/
theorem renderLoop_some_fields (lib : Library K G E) (cfg : Config K) :
    ∀ (fuel : ℕ) (P : ℕ → ParameterValues K) (v : Voice K G E) (out : ℤ → K) (s n : ℤ)
      (r : RenderResult K G E), renderLoop lib cfg fuel P v out s n = some r →
      (r.chunks ≠ [] → r.voice.lastGain = (P (r.chunks.length - 1)).gain) ∧
      r.voice.oscillatorBufferSize = v.oscillatorBufferSize ∧
      r.voice.voiceBufferSize = v.voiceBufferSize ∧
      r.voice.pitchWheelValue = v.pitchWheelValue := by
  intro fuel
  induction fuel with
  | zero =>
    intro P v out s n r h
    rcases renderLoop_some_inv lib cfg 0 P v out s n r h with ⟨_, rfl⟩ | ⟨_, f, _, hf, _⟩
    · simp
    · omega
  | succ fuel ih =>
    intro P v out s n r h
    rcases renderLoop_some_inv lib cfg _ P v out s n r h with ⟨_, rfl⟩ | ⟨hn, f, r1, hf, h1, rfl⟩
    · simp
    · obtain rfl : fuel = f := by omega
      obtain ⟨e1, e2, e3, e4⟩ := ih _ _ _ _ _ r1 h1
      obtain ⟨a1, a2, a3, a4⟩ := afterChunk_fields lib cfg (P 0) v out s (chunkLeft v n).toNat
      refine ⟨?_, by rw [e2, a1], by rw [e3, a2], by rw [e4, a3]⟩
      intro _
      by_cases hr : r1.chunks = []
      · have h2 := h1
        rcases renderLoop_some_inv lib cfg _ _ _ _ _ _ r1 h1 with ⟨_, rfl⟩ | ⟨_, _, r2, _, _, rfl⟩
        · simp [a4]
        · simp at hr
      · have e := e1 hr
        have hlen : 0 < r1.chunks.length := List.length_pos.mpr hr
        simp only [List.length_cons, Nat.add_sub_cancel]
        rw [e]
        congr 2
        omega

theorem demoPlayingVoice_active : demoLibrary.isActive demoPlayingVoice.adsr = true :=
  demoLibrary_noteOn_active _

/-- A sum of integers that are all at least one is not negative. -/
theorem sum_nonneg_of_one_le (l : List ℤ) (h : ∀ x ∈ l, 1 ≤ x) : 0 ≤ l.sum := by
  induction l with
  | nil => simp
  | cons x xs ih =>
    have h1 := h x (List.mem_cons_self x xs)
    have h2 := ih (fun y hy => h y (List.mem_cons_of_mem x hy))
    simp only [List.sum_cons]
    omega

/-- Every chunk of a returning loop starts at or after `startSample`, has at least
one sample and at most the scratch size, and ends inside the block. -/
theorem renderLoop_some_chunk_bounds (lib : Library K G E) (cfg : Config K) (C : ℕ)
    (hC : 0 < C) (fuel : ℕ) (P : ℕ → ParameterValues K) (v : Voice K G E) (out : ℤ → K)
    (s n : ℤ) (r : RenderResult K G E) (hv : v.oscillatorBufferSize = C)
    (h : renderLoop lib cfg fuel P v out s n = some r) (k : ℕ) (c : ℤ × ℤ)
    (hk : r.chunks[k]? = some c) :
    s ≤ c.1 ∧ 1 ≤ c.2 ∧ c.2 ≤ (C : ℤ) ∧ c.1 + c.2 ≤ s + n := by
  obtain ⟨h1, _, _⟩ := renderLoop_some_chunks lib cfg C hC fuel P v out s n r hv h
  obtain ⟨e1, e2⟩ := h1 k c hk
  have hpos : 0 ≤ ((r.chunks.take k).map Prod.snd).sum := by
    apply sum_nonneg_of_one_le
    intro x hx
    obtain ⟨c1, hc1, rfl⟩ := List.mem_map.mp hx
    obtain ⟨i, hi⟩ := List.getElem?_of_mem (List.mem_of_mem_take hc1)
    obtain ⟨e3, e4⟩ := h1 i c1 hi
    rw [e3]
    exact e4
  rw [e1]
  simp only
  omega

/-- Inside the window of chunk `k` the final output is what that chunk wrote: the
chunk is run on the voice and buffer with which the loop enters iteration `k`, and
on this window that buffer still holds the samples of the start of the call. -/
theorem renderLoop_some_window (lib : Library K G E) (cfg : Config K) (C : ℕ) (hC : 0 < C) :
    ∀ (fuel : ℕ) (P : ℕ → ParameterValues K) (v : Voice K G E) (out : ℤ → K) (s n : ℤ)
      (r : RenderResult K G E), v.oscillatorBufferSize = C →
      renderLoop lib cfg fuel P v out s n = some r →
      ∀ (k : ℕ) (c : ℤ × ℤ), r.chunks[k]? = some c → ∀ j : ℤ, c.1 ≤ j → j < c.1 + c.2 →
        r.output j
          = (renderChunk lib cfg (P k) (stateBeforeChunk lib cfg k P v out s n).1
              (stateBeforeChunk lib cfg k P v out s n).2 c.1 c.2.toNat).2 j ∧
        (stateBeforeChunk lib cfg k P v out s n).2 j = out j := by
  intro fuel
  induction fuel with
  | zero =>
    intro P v out s n r _ h k c hk
    rcases renderLoop_some_inv lib cfg 0 P v out s n r h with ⟨_, rfl⟩ | ⟨_, f, _, hf, _⟩
    · simp at hk
    · omega
  | succ fuel ih =>
    intro P v out s n r hv h k c hk j hj1 hj2
    rcases renderLoop_some_inv lib cfg _ P v out s n r h with ⟨_, rfl⟩ | ⟨hn, f, r1, hf, h1, rfl⟩
    · simp at hk
    · obtain rfl : fuel = f := by omega
      have hv1 : (clearNoteIfInactive lib
          (renderChunk lib cfg (P 0) v out s (chunkLeft v n).toNat).1).oscillatorBufferSize
          = C := by
        rw [(afterChunk_fields lib cfg (P 0) v out s _).1, hv]
      have hl : 0 ≤ chunkLeft v n := by
        unfold chunkLeft
        omega
      cases k with
      | zero =>
        simp only [List.getElem?_cons_zero, Option.some.injEq] at hk
        subst hk
        simp only [stateBeforeChunk, and_true]
        exact renderLoop_some_outside lib cfg _ _ _ _ _ _ r1 h1 j (Or.inl hj2)
      | succ k =>
        simp only [List.getElem?_cons_succ] at hk
        obtain ⟨e1, e2⟩ := ih _ _ _ _ _ r1 hv1 h1 k c hk j hj1 hj2
        obtain ⟨b1, _, _, _⟩ :=
          renderLoop_some_chunk_bounds lib cfg C hC _ _ _ _ _ _ r1 hv1 h1 k c hk
        simp only [stateBeforeChunk]
        refine ⟨e1, ?_⟩
        rw [e2]
        simp only [renderChunk]
        apply addFromWithRamp_outside
        omega

/-- A returning loop returns the state reached after as many iterations of the body
as it logged chunks. -/
theorem renderLoop_some_final (lib : Library K G E) (cfg : Config K) :
    ∀ (fuel : ℕ) (P : ℕ → ParameterValues K) (v : Voice K G E) (out : ℤ → K) (s n : ℤ)
      (r : RenderResult K G E), renderLoop lib cfg fuel P v out s n = some r →
      (stateBeforeChunk lib cfg r.chunks.length P v out s n) = (r.voice, r.output) := by
  intro fuel
  induction fuel with
  | zero =>
    intro P v out s n r h
    rcases renderLoop_some_inv lib cfg 0 P v out s n r h with ⟨_, rfl⟩ | ⟨_, f, _, hf, _⟩
    · rfl
    · omega
  | succ fuel ih =>
    intro P v out s n r h
    rcases renderLoop_some_inv lib cfg _ P v out s n r h with ⟨_, rfl⟩ | ⟨hn, f, r1, hf, h1, rfl⟩
    · rfl
    · obtain rfl : fuel = f := by omega
      simp only [List.length_cons, stateBeforeChunk]
      exact ih _ _ _ _ _ r1 h1

theorem demoPlayingVoice_eq : demoPlayingVoice =
    { oscillators := [
        { gain := 0, detune := 0, multiplier := 1, osc := { frequency := 440, gain := 0, phase := 0 } },
        { gain := 1, detune := 1, multiplier := 2, osc := { frequency := 880, gain := 0, phase := 0 } },
        { gain := 2, detune := 2, multiplier := 3, osc := { frequency := 1320, gain := 0, phase := 0 } },
        { gain := 3, detune := 3, multiplier := 4, osc := { frequency := 1760, gain := 0, phase := 0 } }]
      adsr := { state := .attack, envelopeVal := 0, sampleRate := 20,
                parameters := { attack := 1 / 10, decay := 1 / 10, sustain := 1, release := 1 / 10 },
                releaseRate := 0 }
      currentlyPlayingNote := some 69
      pitchWheelValue := 0
      lastGain := 0
      oscillatorBufferSize := 4
      voiceBufferSize := 4 } := by
  norm_num [demoPlayingVoice, startNote, demoVoice, Voice.create, numOscillators, List.range,
    List.range.loop, updateFrequency, oscillatorFrequency, getFrequencyForNote,
    getCurrentlyPlayingNote, getDetuneFromPitchWheel, demoLibrary, demoConfig, demoParameters,
    DemoADSR.noteOn, Sound.getADSR]

theorem demoReleasingVoice_eq : demoReleasingVoice =
    { oscillators := [
        { gain := 0, detune := 0, multiplier := 1, osc := { frequency := 440, gain := 0, phase := 0 } },
        { gain := 1, detune := 1, multiplier := 2, osc := { frequency := 880, gain := 0, phase := 0 } },
        { gain := 2, detune := 2, multiplier := 3, osc := { frequency := 1320, gain := 0, phase := 0 } },
        { gain := 3, detune := 3, multiplier := 4, osc := { frequency := 1760, gain := 0, phase := 0 } }]
      adsr := { state := .release, envelopeVal := 1, sampleRate := 20,
                parameters := { attack := 1 / 10, decay := 1 / 10, sustain := 1, release := 1 / 10 },
                releaseRate := 1 / 2 }
      currentlyPlayingNote := some 69
      pitchWheelValue := 0
      lastGain := 7 / 10
      oscillatorBufferSize := 4
      voiceBufferSize := 4 } := by
  norm_num +decide [demoReleasingVoice, demoSustainingVoice, demoPlayingVoice_eq, stopNote,
    demoLibrary, DemoADSR.noteOff, DemoADSR.rate]

/-- A block of zeros reads zero at every index. -/
theorem getD_replicate_zero (m i : ℕ) : (List.replicate m (0 : K)).getD i 0 = 0 := by
  by_cases h : i < m <;> simp [h]

/-- Adding a silent block changes nothing. -/
theorem addFromWithRamp_zeros (dest : ℤ → K) (d : ℤ) (m left : ℕ) (g0 g1 : K) :
    addFromWithRamp dest d (List.replicate m 0) left g0 g1 = dest := by
  funext j
  unfold addFromWithRamp
  split_ifs
  · rw [getD_replicate_zero]
    simp
  · rfl

/-- A chunk keeps the current note, and the end-of-chunk check keeps a cleared
note cleared. -/
theorem afterChunk_note_none (lib : Library K G E) (cfg : Config K) (p : ParameterValues K)
    (v : Voice K G E) (out : ℤ → K) (s : ℤ) (left : ℕ) (h : v.currentlyPlayingNote = none) :
    (clearNoteIfInactive lib (renderChunk lib cfg p v out s left).1).currentlyPlayingNote
      = none := by
  unfold clearNoteIfInactive
  split_ifs <;> simp [renderChunk, clearCurrentNote, h]

/-- The loop never stores a note: a cleared note is still cleared at the end. -/
theorem renderLoop_note_none (lib : Library K G E) (cfg : Config K) :
    ∀ (fuel : ℕ) (P : ℕ → ParameterValues K) (v : Voice K G E) (out : ℤ → K) (s n : ℤ)
      (r : RenderResult K G E), v.currentlyPlayingNote = none →
      renderLoop lib cfg fuel P v out s n = some r → r.voice.currentlyPlayingNote = none := by
  intro fuel
  induction fuel with
  | zero =>
    intro P v out s n r hv h
    rcases renderLoop_some_inv lib cfg 0 P v out s n r h with ⟨_, rfl⟩ | ⟨_, f, _, hf, _⟩
    · exact hv
    · omega
  | succ fuel ih =>
    intro P v out s n r hv h
    rcases renderLoop_some_inv lib cfg _ P v out s n r h with ⟨_, rfl⟩ | ⟨hn, f, r1, hf, h1, rfl⟩
    · exact hv
    · obtain rfl : fuel = f := by omega
      exact ih _ _ _ _ _ r1 (afterChunk_note_none lib cfg (P 0) v out s _ hv) h1

/-- With an envelope that, once inactive, returns itself and a silent block, a
chunk on an inactive envelope leaves output and envelope as they are. -/
theorem renderChunk_silent (lib : Library K G E) (cfg : Config K) (p : ParameterValues K)
    (v : Voice K G E) (out : ℤ → K) (s : ℤ) (left : ℕ)
    (hsil : ∀ (e : E) (xs : List K), lib.isActive e = false →
      lib.applyEnvelopeToBuffer e xs = (e, List.replicate xs.length 0))
    (hv : lib.isActive v.adsr = false) :
    (renderChunk lib cfg p v out s left).2 = out ∧
    (renderChunk lib cfg p v out s left).1.adsr = v.adsr := by
  simp only [renderChunk, chunkMix, hsil _ _ hv]
  exact ⟨addFromWithRamp_zeros out s _ left _ _, trivial⟩

/-- With such an envelope, a loop entered with an inactive envelope returns the
output it was given. -/
theorem renderLoop_silent (lib : Library K G E) (cfg : Config K)
    (hsil : ∀ (e : E) (xs : List K), lib.isActive e = false →
      lib.applyEnvelopeToBuffer e xs = (e, List.replicate xs.length 0)) :
    ∀ (fuel : ℕ) (P : ℕ → ParameterValues K) (v : Voice K G E) (out : ℤ → K) (s n : ℤ)
      (r : RenderResult K G E), lib.isActive v.adsr = false →
      renderLoop lib cfg fuel P v out s n = some r →
      r.output = out ∧ lib.isActive r.voice.adsr = false := by
  intro fuel
  induction fuel with
  | zero =>
    intro P v out s n r hv h
    rcases renderLoop_some_inv lib cfg 0 P v out s n r h with ⟨_, rfl⟩ | ⟨_, f, _, hf, _⟩
    · exact ⟨rfl, hv⟩
    · omega
  | succ fuel ih =>
    intro P v out s n r hv h
    rcases renderLoop_some_inv lib cfg _ P v out s n r h with ⟨_, rfl⟩ | ⟨hn, f, r1, hf, h1, rfl⟩
    · exact ⟨rfl, hv⟩
    · obtain rfl : fuel = f := by omega
      obtain ⟨c1, c2⟩ := renderChunk_silent lib cfg (P 0) v out s (chunkLeft v n).toNat hsil hv
      have hv1 : lib.isActive (clearNoteIfInactive lib
          (renderChunk lib cfg (P 0) v out s (chunkLeft v n).toNat).1).adsr = false := by
        unfold clearNoteIfInactive
        split_ifs <;> simp [clearCurrentNote, c2, hv]
      obtain ⟨e1, e2⟩ := ih _ _ _ _ _ r1 hv1 h1
      exact ⟨by simp only [e1, c1], e2⟩

theorem demoSustainingVoice_eq : demoSustainingVoice =
    { oscillators := [
        { gain := 0, detune := 0, multiplier := 1, osc := { frequency := 440, gain := 0, phase := 0 } },
        { gain := 1, detune := 1, multiplier := 2, osc := { frequency := 880, gain := 0, phase := 0 } },
        { gain := 2, detune := 2, multiplier := 3, osc := { frequency := 1320, gain := 0, phase := 0 } },
        { gain := 3, detune := 3, multiplier := 4, osc := { frequency := 1760, gain := 0, phase := 0 } }]
      adsr := { state := .sustain, envelopeVal := 1, sampleRate := 20,
                parameters := { attack := 1 / 10, decay := 1 / 10, sustain := 1, release := 1 / 10 },
                releaseRate := 0 }
      currentlyPlayingNote := some 69
      pitchWheelValue := 0
      lastGain := 7 / 10
      oscillatorBufferSize := 4
      voiceBufferSize := 4 } := by
  simp [demoSustainingVoice, demoPlayingVoice_eq]

end Facts

/-! ## The claims -/

section Claims

variable {K G E : Type} [LinearOrderedField K]

/-- C3. Idle fast path: on a voice whose envelope is inactive, `renderNextBlock`
returns (whatever the fuel) with the output buffer and the whole voice state
unchanged and without processing a chunk, for every buffer, `startSample` and
`numSamples`. -/
theorem renderNextBlock_inactive (lib : Library K G E) (cfg : Config K) (fuel : ℕ)
    (P : ℕ → ParameterValues K) (v : Voice K G E) (outputBuffer : ℤ → K)
    (startSample numSamples : ℤ) (h : lib.isActive v.adsr = false) :
    renderNextBlock lib cfg fuel P v outputBuffer startSample numSamples
      = some { voice := v, output := outputBuffer, chunks := [] } :=
  renderNextBlock_of_inactive lib cfg fuel P v outputBuffer startSample numSamples h

theorem renderNextBlock_inactive_witness :
    demoLibrary.isActive demoVoice.adsr = false ∧
    renderNextBlock demoLibrary demoConfig 0 (fun _ => demoParameters) demoVoice (fun _ => 0) 0 64
      = some { voice := demoVoice, output := fun _ => 0, chunks := [] } :=
  ⟨by simp [demoLibrary, demoVoice, Voice.create],
   renderNextBlock_inactive demoLibrary demoConfig 0 (fun _ => demoParameters) demoVoice
     (fun _ => 0) 0 64 (by simp [demoLibrary, demoVoice, Voice.create])⟩

/-- C5. Hard cut: `stopNote` without tail-off resets the envelope and clears the
current note; when the library reset leaves the envelope inactive, the next
`renderNextBlock` returns at once with buffer and voice untouched.  With tail-off
only `noteOff` is applied to the envelope and every other field, the current note
included, is kept.  The velocity plays no role in either case. -/
theorem stopNote_hard_cut (lib : Library K G E) (v : Voice K G E) (velocity : K)
    (hreset : ∀ e, lib.isActive (lib.reset e) = false) :
    (stopNote lib v velocity false).adsr = lib.reset v.adsr ∧
    lib.isActive (stopNote lib v velocity false).adsr = false ∧
    (stopNote lib v velocity false).currentlyPlayingNote = none ∧
    (∀ (cfg : Config K) (fuel : ℕ) (P : ℕ → ParameterValues K) (out : ℤ → K) (s n : ℤ),
      renderNextBlock lib cfg fuel P (stopNote lib v velocity false) out s n
        = some { voice := stopNote lib v velocity false, output := out, chunks := [] }) ∧
    stopNote lib v velocity true = { v with adsr := lib.noteOff v.adsr } ∧
    (stopNote lib v velocity true).currentlyPlayingNote = v.currentlyPlayingNote ∧
    (∀ (velocity2 : K) (allowTailOff : Bool),
      stopNote lib v velocity2 allowTailOff = stopNote lib v velocity allowTailOff) := by
  have h1 : (stopNote lib v velocity false).adsr = lib.reset v.adsr := by
    simp [stopNote, clearCurrentNote]
  refine ⟨h1, by rw [h1]; exact hreset _, by simp [stopNote, clearCurrentNote], ?_,
    by simp [stopNote], by simp [stopNote], ?_⟩
  · intro cfg fuel P out s n
    exact renderNextBlock_of_inactive lib cfg fuel P _ out s n (by rw [h1]; exact hreset _)
  · intro velocity2 allowTailOff
    simp [stopNote]

theorem stopNote_hard_cut_witness :
    (∀ e, demoLibrary.isActive (demoLibrary.reset e) = false) ∧
    (stopNote demoLibrary { demoVoice with currentlyPlayingNote := some 69 } 1 false).currentlyPlayingNote
      = none ∧
    renderNextBlock demoLibrary demoConfig 0 (fun _ => demoParameters)
        (stopNote demoLibrary { demoVoice with currentlyPlayingNote := some 69 } 1 false)
        (fun _ => 0) 0 64
      = some { voice := stopNote demoLibrary { demoVoice with currentlyPlayingNote := some 69 } 1 false,
               output := fun _ => 0, chunks := [] } :=
  have h := stopNote_hard_cut demoLibrary { demoVoice with currentlyPlayingNote := some 69 } 1
    demoLibrary_reset_inactive
  ⟨demoLibrary_reset_inactive, h.2.2.1, h.2.2.2.1 demoConfig 0 (fun _ => demoParameters) (fun _ => 0) 0 64⟩

/-- C8. Pitch-wheel mapping over the rationals: `getDetuneFromPitchWheel V = V/8192 - 1`
for every integer `V`; the centre 8192 gives 0 and then the frequency handed to an
oscillator is the one computed from the oscillator detune alone; 0 gives -1 and
16383 gives 8191/8192, so the contributions to the detune are
`-maxPitchWheelSemitones` and `maxPitchWheelSemitones * (16383/8192 - 1)`; the
mapping is strictly increasing and maps `[0, 16383]` into `[-1, 1)`.
`pitchWheelMoved V` stores this value in `pitchWheelValue` and keeps every other
field of the voice, the generators included. -/
theorem pitchWheel_mapping (lib : Library ℚ G E) (cfg : Config ℚ) (P : ParameterValues ℚ)
    (v : Voice ℚ G E) :
    (∀ V : ℤ, (getDetuneFromPitchWheel V : ℚ) = (V : ℚ) / 8192 - 1) ∧
    (getDetuneFromPitchWheel 8192 : ℚ) = 0 ∧
    (∀ o : BaseOscillator G,
      oscillatorFrequency lib cfg P (pitchWheelMoved v 8192) o
        = getFrequencyForNote lib.pow (getCurrentlyPlayingNote v) (P.detune o.detune)
            cfg.concertPitch * (o.multiplier : ℚ)) ∧
    (getDetuneFromPitchWheel 0 : ℚ) = -1 ∧
    (getDetuneFromPitchWheel 0 : ℚ) * cfg.maxPitchWheelSemitones = -cfg.maxPitchWheelSemitones ∧
    (getDetuneFromPitchWheel 16383 : ℚ) = 8191 / 8192 ∧
    (getDetuneFromPitchWheel 16383 : ℚ) * cfg.maxPitchWheelSemitones
      = cfg.maxPitchWheelSemitones * (16383 / 8192 - 1) ∧
    (∀ V W : ℤ, V < W → (getDetuneFromPitchWheel V : ℚ) < getDetuneFromPitchWheel W) ∧
    (∀ V : ℤ, 0 ≤ V → V ≤ 16383 →
      (-1 : ℚ) ≤ getDetuneFromPitchWheel V ∧ (getDetuneFromPitchWheel V : ℚ) < 1) ∧
    (∀ V : ℤ, pitchWheelMoved v V = { v with pitchWheelValue := (V : ℚ) / 8192 - 1 }) ∧
    (∀ V : ℤ, (pitchWheelMoved v V).oscillators = v.oscillators ∧
      (pitchWheelMoved v V).adsr = v.adsr ∧
      (pitchWheelMoved v V).currentlyPlayingNote = v.currentlyPlayingNote ∧
      (pitchWheelMoved v V).lastGain = v.lastGain) := by
  refine ⟨fun V => rfl, by norm_num [getDetuneFromPitchWheel], ?_,
    by norm_num [getDetuneFromPitchWheel], by norm_num [getDetuneFromPitchWheel],
    by norm_num [getDetuneFromPitchWheel], ?_, ?_, ?_, fun V => rfl, fun V => ⟨rfl, rfl, rfl, rfl⟩⟩
  · intro o
    simp [oscillatorFrequency, pitchWheelMoved, getDetuneFromPitchWheel, getCurrentlyPlayingNote]
  · norm_num [getDetuneFromPitchWheel]
    ring
  · intro V W h
    have h2 : (V : ℚ) < (W : ℚ) := by exact_mod_cast h
    simp only [getDetuneFromPitchWheel]
    linarith
  · intro V h0 h1
    have h2 : (0 : ℚ) ≤ (V : ℚ) := by exact_mod_cast h0
    have h3 : (V : ℚ) ≤ 16383 := by exact_mod_cast h1
    simp only [getDetuneFromPitchWheel]
    constructor <;> linarith

theorem pitchWheel_mapping_witness :
    (7000 : ℤ) < 9000 ∧ (getDetuneFromPitchWheel 7000 : ℚ) < getDetuneFromPitchWheel 9000 ∧
    (0 : ℤ) ≤ 16383 ∧ (16383 : ℤ) ≤ 16383 ∧
    ((-1 : ℚ) ≤ getDetuneFromPitchWheel 16383 ∧ (getDetuneFromPitchWheel 16383 : ℚ) < 1) :=
  have h := pitchWheel_mapping demoLibrary demoConfig demoParameters demoVoice
  ⟨by decide, h.2.2.2.2.2.2.2.1 7000 9000 (by decide), by decide, by decide,
    h.2.2.2.2.2.2.2.2.1 16383 (by decide) (by decide)⟩

/-- C7. Frequency formula over the reals, with `std::pow` read as the real power:
`updateFrequency` sets on the generator the frequency
`concertPitch * 2 ^ ((n + w * maxPitchWheelSemitones + d - 69) / 12) * m` for the
current note `n`, the pitch-wheel value `w`, the oscillator detune `d` and its
multiplier `m`.  Note 69 at concert pitch 440 gives 440, note 81 gives 880, twelve
notes up double the frequency for every note, detune and concert pitch, and the
frequency for the multiplier `m` is `m` times the one for the multiplier 1. -/
theorem frequency_formula (lib : Library ℝ G E) (cfg : Config ℝ) (P : ParameterValues ℝ)
    (v : Voice ℝ G E) (o : BaseOscillator G) (noteStart : Bool) :
    updateFrequency { lib with pow := fun x y => x ^ y } cfg P v o noteStart
      = { o with osc := (lib.setFrequency
            (cfg.concertPitch
              * (2 : ℝ) ^ ((((getCurrentlyPlayingNote v : ℤ) : ℝ)
                  + v.pitchWheelValue * cfg.maxPitchWheelSemitones + P.detune o.detune - 69) / 12)
              * (o.multiplier : ℝ)) noteStart o.osc) } ∧
    getFrequencyForNote (fun x y : ℝ => x ^ y) 69 0 440 = 440 ∧
    getFrequencyForNote (fun x y : ℝ => x ^ y) 81 0 440 = 880 ∧
    (∀ (n : ℤ) (d cp : ℝ),
      getFrequencyForNote (fun x y : ℝ => x ^ y) (n + 12) d cp
        = 2 * getFrequencyForNote (fun x y : ℝ => x ^ y) n d cp) ∧
    (∀ m : ℕ,
      oscillatorFrequency { lib with pow := fun x y => x ^ y } cfg P v { o with multiplier := m }
        = (m : ℝ) * oscillatorFrequency { lib with pow := fun x y => x ^ y } cfg P v
            { o with multiplier := 1 }) := by
  refine ⟨?_, ?_, ?_, ?_, ?_⟩
  · simp only [updateFrequency, oscillatorFrequency, getFrequencyForNote]
    congr 4
    ring_nf
  · simp [getFrequencyForNote]
  · norm_num [getFrequencyForNote]
  · intro n d cp
    simp only [getFrequencyForNote]
    have h : (((n + 12 : ℤ) : ℝ) + d - 69) / 12 = ((n : ℝ) + d - 69) / 12 + 1 := by
      push_cast
      ring
    rw [h, Real.rpow_add (by norm_num : (0 : ℝ) < 2), Real.rpow_one]
    ring
  · intro m
    simp only [oscillatorFrequency, Nat.cast_one, mul_one]
    ring

/-- C6, counterexample. On a voice whose current note is 57, `startNote` with the
note 69 leaves the current note at 57 and sets the first oscillator to 220 Hz, the
frequency of note 57, and not to the 440 Hz of note 69. -/
theorem startNote_note_counterexample :
    (startNote demoLibrary demoConfig demoParameters
        { demoVoice with currentlyPlayingNote := some 57 } 69 1 .synthSound 8192).currentlyPlayingNote
      ≠ some 69 ∧
    (startNote demoLibrary demoConfig demoParameters
        { demoVoice with currentlyPlayingNote := some 57 } 69 1 .synthSound 8192).oscillators.map
        (fun o => o.osc.frequency) = [220, 440, 660, 880] ∧
    getFrequencyForNote demoLibrary.pow 69 0 demoConfig.concertPitch * 1 = 440 := by
  refine ⟨?_, ?_, ?_⟩
  · simp [startNote, demoVoice, Voice.create]
  · norm_num [startNote, demoVoice, Voice.create, numOscillators, List.range, List.range.loop,
      updateFrequency, oscillatorFrequency, getFrequencyForNote, getCurrentlyPlayingNote,
      getDetuneFromPitchWheel, demoLibrary, demoConfig, demoParameters]
  · norm_num [getFrequencyForNote, demoLibrary, demoConfig]

/-- C6, amended. After `startNote note velocity sound p` with a compatible sound the
current note is the one the voice had before the call (`startNote` does not store its
note argument), `pitchWheelValue` is `p/8192 - 1`, the envelope is `noteOn` applied to
the envelope holding the ADSR values read now, and it is active; every oscillator has
received a frequency update with the reset flag set, computed from the current note
of the voice, hence from `note` when the caller has stored `note` there before the
call.  The result depends neither on the velocity nor on the note argument. -/
theorem startNote_effect (lib : Library K G E) (cfg : Config K) (P : ParameterValues K)
    (v : Voice K G E) (note : ℤ) (velocity : K) (p : ℤ)
    (hnoteOn : ∀ e, lib.isActive (lib.noteOn e) = true) :
    (startNote lib cfg P v note velocity .synthSound p).currentlyPlayingNote
      = v.currentlyPlayingNote ∧
    (startNote lib cfg P v note velocity .synthSound p).pitchWheelValue = (p : K) / 8192 - 1 ∧
    (startNote lib cfg P v note velocity .synthSound p).adsr
      = lib.noteOn (lib.setParameters
          { attack := P.attack, decay := P.decay, sustain := P.sustain, release := P.release }
          v.adsr) ∧
    lib.isActive (startNote lib cfg P v note velocity .synthSound p).adsr = true ∧
    (startNote lib cfg P v note velocity .synthSound p).oscillators
      = v.oscillators.map (fun o =>
          { o with osc := (lib.setFrequency
              (getFrequencyForNote lib.pow (getCurrentlyPlayingNote v)
                  (((p : K) / 8192 - 1) * cfg.maxPitchWheelSemitones + P.detune o.detune)
                  cfg.concertPitch * (o.multiplier : K))
              true o.osc) }) ∧
    (v.currentlyPlayingNote = some note →
      (startNote lib cfg P v note velocity .synthSound p).currentlyPlayingNote = some note ∧
      (startNote lib cfg P v note velocity .synthSound p).oscillators
        = v.oscillators.map (fun o =>
            { o with osc := (lib.setFrequency
                (getFrequencyForNote lib.pow note
                    (((p : K) / 8192 - 1) * cfg.maxPitchWheelSemitones + P.detune o.detune)
                    cfg.concertPitch * (o.multiplier : K))
                true o.osc) })) ∧
    (∀ (note2 : ℤ) (velocity2 : K),
      startNote lib cfg P v note2 velocity2 .synthSound p
        = startNote lib cfg P v note velocity .synthSound p) := by
  have hosc : (startNote lib cfg P v note velocity .synthSound p).oscillators
      = v.oscillators.map (fun o =>
          { o with osc := (lib.setFrequency
              (getFrequencyForNote lib.pow (getCurrentlyPlayingNote v)
                  (((p : K) / 8192 - 1) * cfg.maxPitchWheelSemitones + P.detune o.detune)
                  cfg.concertPitch * (o.multiplier : K))
              true o.osc) }) := by
    simp [startNote, updateFrequency, oscillatorFrequency, getCurrentlyPlayingNote,
      getDetuneFromPitchWheel]
  refine ⟨rfl, rfl, rfl, hnoteOn _, hosc, ?_, fun _ _ => rfl⟩
  intro hn
  refine ⟨hn, ?_⟩
  rw [hosc]
  simp [getCurrentlyPlayingNote, hn]

theorem startNote_effect_witness :
    (∀ e, demoLibrary.isActive (demoLibrary.noteOn e) = true) ∧
    (startNote demoLibrary demoConfig demoParameters
        { demoVoice with currentlyPlayingNote := some 69 } 69 1 .synthSound 8192).currentlyPlayingNote
      = some 69 ∧
    demoLibrary.isActive (startNote demoLibrary demoConfig demoParameters
        { demoVoice with currentlyPlayingNote := some 69 } 69 1 .synthSound 8192).adsr = true :=
  have h := startNote_effect demoLibrary demoConfig demoParameters
    { demoVoice with currentlyPlayingNote := some 69 } 69 1 8192 demoLibrary_noteOn_active
  ⟨demoLibrary_noteOn_active, (h.2.2.2.2.2.1 rfl).1, h.2.2.2.1⟩

/-- C10. Termination and chunk layout.  On an active voice with scratch buffers of
positive size the render call returns as soon as the fuel covers `numSamples`.
Chunk `k` is written at `startSample` plus the lengths of the earlier chunks, its
length is the smaller of the remaining count and the scratch size, lies between 1
and the size of either scratch buffer, and its window stays inside
`[startSample, startSample + numSamples)`; the lengths add up to `numSamples`; no
sample outside that window changes; for `numSamples ≤ 0` no chunk is processed
and buffer and voice are returned as they were.  The chunk list is what is written:
inside the window of chunk `k` the returned output is the output of the start of
the call plus the enveloped mix of that chunk, computed on the voice with which the
loop enters iteration `k`, ramped from the last gain of that voice to the gain the
chunk reads; sample `i` of the mix lands at the offset of the chunk plus `i`.  The
returned voice and output are the state after the last logged chunk. -/
theorem render_chunk_layout (lib : Library K G E) (cfg : Config K) (fuel : ℕ)
    (P : ℕ → ParameterValues K) (v : Voice K G E) (out : ℤ → K) (s n : ℤ)
    (hact : lib.isActive v.adsr = true) (hC : 0 < v.oscillatorBufferSize)
    (hsz : v.voiceBufferSize = v.oscillatorBufferSize) (hfuel : n.toNat ≤ fuel) :
    ∃ r, renderNextBlock lib cfg fuel P v out s n = some r ∧
      (∀ (k : ℕ) (c : ℤ × ℤ), r.chunks[k]? = some c →
        c.1 = s + ((r.chunks.take k).map Prod.snd).sum ∧
        c.2 = min (n - ((r.chunks.take k).map Prod.snd).sum) (v.oscillatorBufferSize : ℤ) ∧
        1 ≤ c.2 ∧ c.2 ≤ (v.oscillatorBufferSize : ℤ) ∧ c.2 ≤ (v.voiceBufferSize : ℤ) ∧
        s ≤ c.1 ∧ c.1 + c.2 ≤ s + n) ∧
      (r.chunks.map Prod.snd).sum = max n 0 ∧
      (∀ j : ℤ, (j < s ∨ s + n ≤ j) → r.output j = out j) ∧
      (n ≤ 0 → r = { voice := v, output := out, chunks := [] }) ∧
      (∀ (k : ℕ) (c : ℤ × ℤ), r.chunks[k]? = some c → ∀ i : ℕ, (i : ℤ) < c.2 →
        r.output (c.1 + i)
          = out (c.1 + i)
            + ((stateBeforeChunk lib cfg k P v out s n).1.lastGain
                + (i : K) * (((P k).gain - (stateBeforeChunk lib cfg k P v out s n).1.lastGain)
                    / (c.2.toNat : K)))
              * (chunkMix lib cfg (P k) (stateBeforeChunk lib cfg k P v out s n).1
                  c.2.toNat).2.2.getD i 0) ∧
      stateBeforeChunk lib cfg r.chunks.length P v out s n = (r.voice, r.output) := by
  obtain ⟨r, hr⟩ := renderLoop_isSome lib cfg v.oscillatorBufferSize hC fuel P v out s n rfl hfuel
  obtain ⟨h1, h2, h3⟩ :=
    renderLoop_some_chunks lib cfg v.oscillatorBufferSize hC fuel P v out s n r rfl hr
  refine ⟨r, by rw [renderNextBlock_active lib cfg fuel P v out s n hact, hr], ?_, h2,
    renderLoop_some_outside lib cfg fuel P v out s n r hr, ?_, ?_,
    renderLoop_some_final lib cfg fuel P v out s n r hr⟩
  rotate_left
  · intro hn
    rcases renderLoop_some_inv lib cfg fuel P v out s n r hr with ⟨_, e⟩ | ⟨hp, _⟩
    · exact e
    · omega
  · intro k c hk i hi
    obtain ⟨_, b2, _, _⟩ :=
      renderLoop_some_chunk_bounds lib cfg v.oscillatorBufferSize hC fuel P v out s n r rfl hr
        k c hk
    obtain ⟨e1, e2⟩ := renderLoop_some_window lib cfg v.oscillatorBufferSize hC fuel P v out
      s n r rfl hr k c hk (c.1 + i) (by omega) (by omega)
    have hw : c.1 ≤ c.1 + (i : ℤ) ∧ c.1 + (i : ℤ) < c.1 + ((c.2.toNat : ℕ) : ℤ) := by omega
    rw [e1]
    simp only [renderChunk, addFromWithRamp, if_pos hw, e2, add_sub_cancel_left,
      Int.toNat_ofNat, Int.cast_natCast]
  · intro k c hk
    obtain ⟨e1, e2⟩ := h1 k c hk
    have hpos : 0 ≤ ((r.chunks.take k).map Prod.snd).sum := by
      apply sum_nonneg_of_one_le
      intro x hx
      obtain ⟨c1, hc1, rfl⟩ := List.mem_map.mp hx
      obtain ⟨i, hi⟩ := List.getElem?_of_mem (List.mem_of_mem_take hc1)
      obtain ⟨e3, e4⟩ := h1 i c1 hi
      rw [e3]
      exact e4
    rw [e1, hsz]
    simp only [true_and]
    omega

theorem render_chunk_layout_witness :
    demoLibrary.isActive demoPlayingVoice.adsr = true ∧
    0 < demoPlayingVoice.oscillatorBufferSize ∧
    demoPlayingVoice.voiceBufferSize = demoPlayingVoice.oscillatorBufferSize ∧
    (10 : ℤ).toNat ≤ 10 ∧
    ∃ r, renderNextBlock demoLibrary demoConfig 10 (fun _ => demoParameters) demoPlayingVoice
          (fun _ => 0) 0 10 = some r ∧
      r.chunks = [(0, 4), (4, 4), (8, 2)] ∧
      (r.chunks.map Prod.snd).sum = max 10 0 ∧
      (∀ j : ℤ, (j < 0 ∨ 0 + 10 ≤ j) → r.output j = 0) ∧
      r.output 1 = 7 / 40 ∧ r.output 2 = -(7 / 20) ∧ r.output 9 = 7 / 10 ∧
      r.output (8 + (1 : ℕ))
        = (fun _ => (0 : ℚ)) (8 + (1 : ℕ))
          + ((stateBeforeChunk demoLibrary demoConfig 2 (fun _ => demoParameters)
                demoPlayingVoice (fun _ => 0) 0 10).1.lastGain
              + ((1 : ℕ) : ℚ) * ((demoParameters.gain
                  - (stateBeforeChunk demoLibrary demoConfig 2 (fun _ => demoParameters)
                      demoPlayingVoice (fun _ => 0) 0 10).1.lastGain)
                / (((2 : ℤ).toNat : ℕ) : ℚ)))
            * (chunkMix demoLibrary demoConfig demoParameters
                (stateBeforeChunk demoLibrary demoConfig 2 (fun _ => demoParameters)
                  demoPlayingVoice (fun _ => 0) 0 10).1 (2 : ℤ).toNat).2.2.getD 1 0 := by
  obtain ⟨r, hr, _, h2, h3, _, h5, _⟩ :=
    render_chunk_layout demoLibrary demoConfig 10 (fun _ => demoParameters)
      demoPlayingVoice (fun _ => 0) 0 10 demoPlayingVoice_active (by decide) rfl (by decide)
  have he : (renderNextBlock demoLibrary demoConfig 10 (fun _ => demoParameters)
      demoPlayingVoice (fun _ => 0) 0 10).map
      (fun r => (r.chunks, r.output 1, r.output 2, r.output 9))
      = some ([(0, 4), (4, 4), (8, 2)], 7 / 40, -(7 / 20), 7 / 10) := by
    rw [demoPlayingVoice_eq]
    norm_num +decide [renderNextBlock, renderLoop, renderChunk, chunkMix, renderOscillators,
      chunkLeft, clearNoteIfInactive, clearCurrentNote, demoLibrary, demoParameters,
      demoConfig, updateFrequency, demoProcess, DemoADSR.applyEnvelopeToBuffer,
      DemoADSR.getNextSample, DemoADSR.rate, DemoADSR.reset, addFromWithRamp, demoWave,
      oscillatorFrequency, getFrequencyForNote, getCurrentlyPlayingNote, Int.toNat]
  rw [hr] at he
  simp only [Option.map_some', Option.some.injEq, Prod.mk.injEq] at he
  obtain ⟨c1, o1, o2, o9⟩ := he
  have hk : r.chunks[2]? = some (8, 2) := by rw [c1]; rfl
  exact ⟨demoPlayingVoice_active, by decide, rfl, by decide, r, hr, c1, h2, h3, o1, o2, o9,
    h5 2 (8, 2) hk 1 (by decide)⟩

/-- C9. Gain ramp.  A chunk adds its enveloped mix into the output with a linear ramp
from the `lastGain` it finds, left there by the previous chunk or call, to the
output gain read in this chunk: sample `i` gets the gain
`lastGain + i * (gain - lastGain) / left`.  The chunk then stores the read gain in
`lastGain`, and the end-of-chunk check keeps it; the loop hands this voice and the
ramped output to the next chunk.  So a call on an active voice that processes at
least one chunk ends with `lastGain` equal to the gain read by its last chunk.  When the gain read equals `lastGain`, sample `startSample + i` of the output
grows by exactly `gain * mix[i]`. -/
theorem gain_ramp (lib : Library K G E) (cfg : Config K) (p : ParameterValues K)
    (v : Voice K G E) (out : ℤ → K) (s : ℤ) (left : ℕ) :
    (renderChunk lib cfg p v out s left).2
      = addFromWithRamp out s (chunkMix lib cfg p v left).2.2 left v.lastGain p.gain ∧
    (∀ i : ℕ, i < left →
      (renderChunk lib cfg p v out s left).2 (s + i)
        = out (s + i) + (v.lastGain + (i : K) * ((p.gain - v.lastGain) / left))
            * (chunkMix lib cfg p v left).2.2.getD i 0) ∧
    (renderChunk lib cfg p v out s left).1.lastGain = p.gain ∧
    (clearNoteIfInactive lib (renderChunk lib cfg p v out s left).1).lastGain = p.gain ∧
    (∀ (fuel : ℕ) (P : ℕ → ParameterValues K) (n : ℤ), 0 < n →
      renderLoop lib cfg (fuel + 1) P v out s n
        = (renderLoop lib cfg fuel (fun k => P (k + 1))
            (clearNoteIfInactive lib
              (renderChunk lib cfg (P 0) v out s (chunkLeft v n).toNat).1)
            (addFromWithRamp out s (chunkMix lib cfg (P 0) v (chunkLeft v n).toNat).2.2
              (chunkLeft v n).toNat v.lastGain (P 0).gain)
            (s + chunkLeft v n) (n - chunkLeft v n)).map
          (fun r => { r with chunks := (s, chunkLeft v n) :: r.chunks })) ∧
    (∀ (fuel : ℕ) (P : ℕ → ParameterValues K) (n : ℤ), lib.isActive v.adsr = true →
      0 < v.oscillatorBufferSize → 0 < n → n.toNat ≤ fuel →
      ∃ r, renderNextBlock lib cfg fuel P v out s n = some r ∧ r.chunks ≠ [] ∧
        r.voice.lastGain = (P (r.chunks.length - 1)).gain) ∧
    (v.lastGain = p.gain → ∀ i : ℕ, i < left →
      (renderChunk lib cfg p v out s left).2 (s + i)
        = out (s + i) + p.gain * (chunkMix lib cfg p v left).2.2.getD i 0) := by
  have hramp : ∀ i : ℕ, i < left →
      (renderChunk lib cfg p v out s left).2 (s + i)
        = out (s + i) + (v.lastGain + (i : K) * ((p.gain - v.lastGain) / left))
            * (chunkMix lib cfg p v left).2.2.getD i 0 := by
    intro i hi
    have hw : s ≤ s + (i : ℤ) ∧ s + (i : ℤ) < s + (left : ℤ) := by omega
    simp [renderChunk, addFromWithRamp, hw]
  refine ⟨rfl, hramp, rfl, (afterChunk_fields lib cfg p v out s left).2.2.2,
    fun fuel P n hn => renderLoop_succ lib cfg fuel P v out s n hn, ?_, ?_⟩
  · intro fuel P n hact hC hn hfuel
    obtain ⟨r, hr⟩ :=
      renderLoop_isSome lib cfg v.oscillatorBufferSize hC fuel P v out s n rfl hfuel
    have hne : r.chunks ≠ [] := by
      intro h
      have := (renderLoop_some_chunks lib cfg v.oscillatorBufferSize hC fuel P v out s n r
        rfl hr).2.2.mp h
      omega
    exact ⟨r, by rw [renderNextBlock_active lib cfg fuel P v out s n hact, hr], hne,
      (renderLoop_some_fields lib cfg fuel P v out s n r hr).1 hne⟩
  · intro hg i hi
    rw [hramp i hi, hg]
    simp

/-- C2, counterexample.  The releasing example voice is rendered for 8 samples with
scratch buffers of 4.  After the first chunk (a call for 4 samples) the envelope is
inactive, yet the call for 8 samples processes a second chunk `(4, 4)`: the first
oscillator has generated 8 samples and has been set to the frequency of the cleared
note, and `lastGain` is the gain 1/2 read by the second chunk, not the 7/10 read by
the first. -/
theorem render_continues_counterexample :
    (renderNextBlock demoLibrary demoConfig 8 demoGainStream demoReleasingVoice
        (fun _ => 0) 0 4).map
      (fun r => (demoLibrary.isActive r.voice.adsr, r.voice.lastGain,
        r.voice.oscillators.map (fun o => o.osc.phase)))
      = some (false, 7 / 10, [4, 0, 0, 0]) ∧
    (renderNextBlock demoLibrary demoConfig 8 demoGainStream demoReleasingVoice
        (fun _ => 0) 0 8).map
      (fun r => (r.chunks, r.voice.lastGain, r.voice.currentlyPlayingNote,
        r.voice.oscillators.map (fun o => o.osc.phase),
        r.voice.oscillators.map (fun o => o.osc.frequency)))
      = some ([(0, 4), (4, 4)], 1 / 2, none, [8, 0, 0, 0], [55 / 8, 880, 1320, 1760]) := by
  rw [demoReleasingVoice_eq]
  constructor <;>
  norm_num +decide [renderNextBlock, renderLoop, renderChunk, chunkMix, renderOscillators,
    chunkLeft, clearNoteIfInactive, clearCurrentNote, demoLibrary, demoParameters, demoConfig,
    updateFrequency, demoProcess, DemoADSR.applyEnvelopeToBuffer, DemoADSR.getNextSample,
    DemoADSR.rate, DemoADSR.reset, addFromWithRamp, demoWave, oscillatorFrequency,
    getFrequencyForNote, getCurrentlyPlayingNote, Int.toNat, demoGainStream]

/-- C2, amended.  Let the loop stand before a chunk, with samples left, and let the
envelope be inactive after the envelope application of this chunk.  Then the current
note is cleared and is still cleared when the call returns.  The loop has no early
exit: the call returns the result of the loop on the remaining samples, run on the
voice with the cleared note, so later chunks compute frequencies from the note value
-1, every sample of the call lies in a processed chunk, and `lastGain` ends as the
gain read by the last chunk.  When an inactive envelope of the library stays as it
is and silences its block, the output after this chunk is the final output. -/
theorem render_after_envelope_end (lib : Library K G E) (cfg : Config K) (fuel : ℕ)
    (P : ℕ → ParameterValues K) (v : Voice K G E) (out : ℤ → K) (s n : ℤ)
    (hC : 0 < v.oscillatorBufferSize) (hn : 0 < n) (hfuel : n.toNat ≤ fuel)
    (hend : lib.isActive
      (renderChunk lib cfg (P 0) v out s (chunkLeft v n).toNat).1.adsr = false) :
    ∃ r r1, renderLoop lib cfg fuel P v out s n = some r ∧
      (lib.isActive v.adsr = true → renderNextBlock lib cfg fuel P v out s n = some r) ∧
      renderLoop lib cfg (fuel - 1) (fun k => P (k + 1))
          (clearCurrentNote (renderChunk lib cfg (P 0) v out s (chunkLeft v n).toNat).1)
          (renderChunk lib cfg (P 0) v out s (chunkLeft v n).toNat).2
          (s + chunkLeft v n) (n - chunkLeft v n) = some r1 ∧
      r = { r1 with chunks := (s, chunkLeft v n) :: r1.chunks } ∧
      getCurrentlyPlayingNote
        (clearCurrentNote (renderChunk lib cfg (P 0) v out s (chunkLeft v n).toNat).1) = -1 ∧
      r.voice.currentlyPlayingNote = none ∧
      (r.chunks.map Prod.snd).sum = n ∧
      ((v.oscillatorBufferSize : ℤ) < n → 2 ≤ r.chunks.length) ∧
      r.voice.lastGain = (P (r.chunks.length - 1)).gain ∧
      ((∀ (e : E) (xs : List K), lib.isActive e = false →
          lib.applyEnvelopeToBuffer e xs = (e, List.replicate xs.length 0)) →
        r.output = (renderChunk lib cfg (P 0) v out s (chunkLeft v n).toNat).2) := by
  obtain ⟨r, hr⟩ :=
    renderLoop_isSome lib cfg v.oscillatorBufferSize hC fuel P v out s n rfl hfuel
  have hclear : clearNoteIfInactive lib
      (renderChunk lib cfg (P 0) v out s (chunkLeft v n).toNat).1
      = clearCurrentNote (renderChunk lib cfg (P 0) v out s (chunkLeft v n).toNat).1 := by
    simp [clearNoteIfInactive, hend]
  rcases renderLoop_some_inv lib cfg fuel P v out s n r hr with ⟨h0, _⟩ | ⟨_, f, r1, hf, h1, hr1⟩
  · omega
  · rw [hclear] at h1
    obtain rfl : f = fuel - 1 := by omega
    obtain ⟨_, hsum, hnil⟩ :=
      renderLoop_some_chunks lib cfg v.oscillatorBufferSize hC fuel P v out s n r rfl hr
    have hne : r.chunks ≠ [] := fun h => by
      have := hnil.mp h
      omega
    refine ⟨r, r1, hr, fun hact => by rw [renderNextBlock_active lib cfg fuel P v out s n hact, hr],
      h1, hr1, rfl, ?_, by rw [hsum]; omega, ?_,
      (renderLoop_some_fields lib cfg fuel P v out s n r hr).1 hne, ?_⟩
    · rw [hr1]
      exact renderLoop_note_none lib cfg _ _ _ _ _ _ r1 rfl h1
    · intro hlt
      have h2 : r1.chunks ≠ [] := by
        intro h
        have h3 := (renderLoop_some_chunks lib cfg v.oscillatorBufferSize hC _ _ _ _ _ _ r1
          (by simp [clearCurrentNote, renderChunk]) h1).2.2.mp h
        unfold chunkLeft at h3
        omega
      have h4 : 0 < r1.chunks.length := List.length_pos.mpr h2
      rw [hr1]
      simp only [List.length_cons]
      omega
    · intro hsil
      rw [hr1]
      exact (renderLoop_silent lib cfg hsil _ _ _ _ _ _ r1
        (by simpa [clearCurrentNote] using hend) h1).1

theorem gain_ramp_witness :
    demoSustainingVoice.lastGain = demoParameters.gain ∧
    (renderChunk demoLibrary demoConfig demoParameters demoSustainingVoice (fun _ => 0) 0 4).2
        (0 + (1 : ℕ))
      = (fun _ => (0 : ℚ)) (0 + (1 : ℕ)) + demoParameters.gain
          * (chunkMix demoLibrary demoConfig demoParameters demoSustainingVoice 4).2.2.getD 1 0 ∧
    ∃ r, renderNextBlock demoLibrary demoConfig 8 demoGainStream demoSustainingVoice
          (fun _ => 0) 0 8 = some r ∧ r.chunks ≠ [] ∧
        r.voice.lastGain = (demoGainStream (r.chunks.length - 1)).gain :=
  have h := gain_ramp demoLibrary demoConfig demoParameters demoSustainingVoice (fun _ => 0) 0 4
  ⟨rfl, h.2.2.2.2.2.2 rfl 1 (by decide),
    h.2.2.2.2.2.1 8 demoGainStream 8 (by simp [demoSustainingVoice_eq, demoLibrary])
      (by decide) (by decide) (by decide)⟩

theorem render_after_envelope_end_witness :
    demoLibrary.isActive
      (renderChunk demoLibrary demoConfig (demoGainStream 0) demoReleasingVoice (fun _ => 0) 0
        (chunkLeft demoReleasingVoice 8).toNat).1.adsr = false ∧
    ∃ r, renderNextBlock demoLibrary demoConfig 8 demoGainStream demoReleasingVoice
          (fun _ => 0) 0 8 = some r ∧
      r.voice.currentlyPlayingNote = none ∧ 2 ≤ r.chunks.length ∧
      r.voice.lastGain = (demoGainStream (r.chunks.length - 1)).gain := by
  have hend : demoLibrary.isActive
      (renderChunk demoLibrary demoConfig (demoGainStream 0) demoReleasingVoice (fun _ => 0) 0
        (chunkLeft demoReleasingVoice 8).toNat).1.adsr = false := by
    rw [demoReleasingVoice_eq]
    norm_num +decide [renderChunk, chunkMix, renderOscillators, chunkLeft, demoLibrary,
      demoParameters, demoConfig, updateFrequency, demoProcess, DemoADSR.applyEnvelopeToBuffer,
      DemoADSR.getNextSample, DemoADSR.rate, DemoADSR.reset, demoWave, Int.toNat,
      demoGainStream]
  obtain ⟨r, r1, h1, h2, h3, h4, h5, h6, h7, h8, h9, h10⟩ :=
    render_after_envelope_end demoLibrary demoConfig 8 demoGainStream demoReleasingVoice
      (fun _ => 0) 0 8 (by decide) (by decide) (by decide) hend
  exact ⟨hend, r, h2 (by simp [demoReleasingVoice_eq, demoLibrary]), h6,
    h8 (by simp [demoReleasingVoice_eq]), h9⟩

end Claims

end Synth


